import Mathlib

/-!
# The MAPF driver `mapf.cpp`

A shallow embedding of the command-line driver of the simulator: the option
loop of `main`, the early exits, the calls `main` issues on the instance and
on the solver, and the solver selector `getSolver`.

Everything the driver calls but does not define lives in other translation
units or in libc.  Those pieces are inputs of the model, collected in `Env`:

* what `getopt_long` returns, call after call, for a given `argv`;
* what `std::atoi` returns for a given string;
* the value of the macro `DEFAULT_OUTPUT_FILE`;
* what `succeed()` and `validate(&P)` answer;
* the content of the local `random_seed`, which `main` declares without an
  initialiser.

Every call `main` issues is recorded, in order, as an `Event`; a call is
taken to return to its caller.  A run either leaves `main` through one of its
`return` statements, with a status and the events issued so far, or runs into
behaviour the C++ standard leaves undefined (a null `optarg` handed to
`std::string` or `std::atoi`).
-/

namespace Mapf

/-! ## Data -/

/-- The four solver classes the driver can instantiate. -/
inductive SolverKind where
  | PIBT
  | HCA
  | PIBT_PLUS
  | PushAndSwap
deriving DecidableEq, Repr

/-- An instance object, identified by the six arguments of the constructor call
`MAPF_Instance(map_file, agent_file, agentsNum, max_comp_time, max_timestep,
random_seed)` that built it. -/
structure MAPF_Instance where
  map_file : String
  agent_file : String
  agentsNum : Int
  max_comp_time : Int
  max_timestep : Int
  random_seed : Int
deriving DecidableEq, Repr

/-- A solver object as the driver sees it: its dynamic class and the instance
whose address was handed to its constructor. -/
structure MAPF_Solver where
  kind : SolverKind
  P : MAPF_Instance
deriving DecidableEq, Repr

/-- The calls the driver issues, and the lines it writes to `std::cout`
(each `cout` event is one output statement terminated by `std::endl`). -/
inductive Event where
  | cout (line : String)
  | solverHelp (k : SolverKind)
  | newInstance (P : MAPF_Instance)
  | setMaxCompTime (t : Int)
  | makeScenFile (output_file : String)
  | make_unique (k : SolverKind) (P : MAPF_Instance)
  | setParams (argc : Nat) (argv : List String)
  | setVerbose (verbose : Bool)
  | setLogShort (log_short : Bool)
  | solve
  | succeed
  | validate (P : MAPF_Instance)
  | printResult
  | makeLog (output_file path_file : String)
deriving DecidableEq, Repr

/-- One return of `getopt_long` other than `-1`: the option character and the
value of the global `optarg` at that moment (`none` for a null pointer). -/
structure OptRet where
  opt : Char
  optarg : Option String
deriving DecidableEq, Repr

/-- The surroundings of `mapf.cpp`. -/
structure Env where
  /-- The macro of `default_params.hpp`. -/
  DEFAULT_OUTPUT_FILE : String
  /-- The function `std::atoi` of libc. -/
  atoi : String → Int
  /-- Content of the local `random_seed` of `main` before any assignment: the
  declaration `int opt, longindex, random_seed;` has no initialiser. -/
  random_seed : Int
  /-- The successive returns of `getopt_long` on the given `argv` up to the
  final `-1`, and the (possibly reordered) content it leaves in `argv`. -/
  getopt_long : List String → List OptRet × List String
  /-- The answer of `solver->succeed()`. -/
  succeed : Bool
  /-- The answer of `solver->getSolution().validate(&P)`. -/
  validate : Bool

/-- The local variables of `main` that the option loop assigns. -/
structure Locals where
  map_file : String
  agent_file : String
  agentsNum : Int
  output_file : String
  path_file : String
  solver_name : String
  verbose : Bool
  make_scen : Bool
  log_short : Bool
  max_comp_time : Int
  max_timestep : Int
  random_seed : Int
deriving DecidableEq, Repr

/-- How a run of `main` ends. -/
inductive Outcome where
  | exit (status : Int) (trace : List Event)
  | undefined
deriving DecidableEq, Repr

/-- How one pass through the body of the option loop ends, and how the loop
as a whole ends. -/
inductive Loop where
  | next (L : Locals)
  | help
  | undefined
deriving DecidableEq, Repr

/-! ## Arithmetic of `int` -/

/-- A value reduced to the range of a 32-bit two's complement `int`. -/
def wrapInt32 (x : Int) : Int :=
  (x + 2147483648) % 4294967296 - 2147483648

/-! ## `printHelp` -/

/-- The text `printHelp` writes itself, before the solvers add theirs. -/
def helpText : String :=
  "\nUsage: ./mapf [OPTIONS] [SOLVER-OPTIONS]\n"
  ++ "\n**instance file is necessary to run MAPF simulator**\n\n"
  ++ "  -m --map [FILE_PATH]     map file path\n"
  ++ "  -a --agent [FILE_PATH]     scenario file path\n"
  ++ "  -e --timestep-limit [FILE_PATH]     max timestep\n"
  ++ "  -o --output [FILE_PATH]       output file path \n"
  ++ "  -p --outputPaths [FILE_PATH]       paths to output file \n"
  ++ "  -v --verbose                  print additional info\n"
  ++ "  -h --help                     help\n"
  ++ "  -s --solver [SOLVER_NAME]     solver, choose from the below\n"
  ++ "  -t --time-limit [INT]         max computation time (s)\n"
  ++ "  -L --log-short                use short log"
  ++ "  -P --make-scen                make scenario file using "
  ++ "random starts/goals"
  ++ "\n\nSolver Options:"

/-- The function `printHelp`. -/
def printHelp : List Event :=
  [ Event.cout helpText,
    Event.solverHelp SolverKind.PIBT,
    Event.solverHelp SolverKind.HCA,
    Event.solverHelp SolverKind.PIBT_PLUS,
    Event.solverHelp SolverKind.PushAndSwap ]

/-! ## `getSolver` -/

/-- The warning `getSolver` writes for a name it does not know. -/
def warnText (solver_name : String) : String :=
  "warn@mapf: " ++ ("unknown solver name, " ++ solver_name ++ ", continue by PIBT")

/-- The function `getSolver`: the solver it returns and the calls it issues. -/
def getSolver (solver_name : String) (P : MAPF_Instance) (verbose : Bool)
    (argc : Nat) (argv : List String) : MAPF_Solver × List Event :=
  let made : MAPF_Solver × List Event :=
    if solver_name = "PIBT" then
      (⟨SolverKind.PIBT, P⟩, [Event.make_unique SolverKind.PIBT P])
    else if solver_name = "HCA" then
      (⟨SolverKind.HCA, P⟩, [Event.make_unique SolverKind.HCA P])
    else if solver_name = "PIBT_PLUS" then
      (⟨SolverKind.PIBT_PLUS, P⟩, [Event.make_unique SolverKind.PIBT_PLUS P])
    else if solver_name = "PushAndSwap" then
      (⟨SolverKind.PushAndSwap, P⟩, [Event.make_unique SolverKind.PushAndSwap P])
    else
      (⟨SolverKind.PIBT, P⟩,
        [Event.cout (warnText solver_name), Event.make_unique SolverKind.PIBT P])
  (made.1, made.2 ++ [Event.setParams argc argv, Event.setVerbose verbose])

/-! ## `main` -/

/-- The locals of `main` as they stand when the option loop is entered. -/
def initLocals (E : Env) : Locals where
  map_file := ""
  agent_file := ""
  agentsNum := 0
  output_file := E.DEFAULT_OUTPUT_FILE
  path_file := E.DEFAULT_OUTPUT_FILE
  solver_name := ""
  verbose := false
  make_scen := false
  log_short := false
  max_comp_time := -1
  max_timestep := -1
  random_seed := E.random_seed

/-- The `switch (opt)` of the option loop.  The cases that read `optarg`
hand it to `std::string` or to `std::atoi`, neither of which is defined on a
null pointer. -/
def switchOpt (E : Env) (L : Locals) (r : OptRet) : Loop :=
  if r.opt = 'm' then
    match r.optarg with
    | some s => Loop.next { L with map_file := s }
    | none => Loop.undefined
  else if r.opt = 'a' then
    match r.optarg with
    | some s => Loop.next { L with agent_file := s }
    | none => Loop.undefined
  else if r.opt = 'k' then
    match r.optarg with
    | some s => Loop.next { L with agentsNum := E.atoi s }
    | none => Loop.undefined
  else if r.opt = 'o' then
    match r.optarg with
    | some s => Loop.next { L with output_file := s ++ ".csv" }
    | none => Loop.undefined
  else if r.opt = 'p' then
    match r.optarg with
    | some s => Loop.next { L with path_file := s ++ ".path" }
    | none => Loop.undefined
  else if r.opt = 's' then
    match r.optarg with
    | some s => Loop.next { L with solver_name := s }
    | none => Loop.undefined
  else if r.opt = 'd' then
    match r.optarg with
    | some s => Loop.next { L with random_seed := E.atoi s }
    | none => Loop.undefined
  else if r.opt = 't' then
    match r.optarg with
    | some s => Loop.next { L with max_comp_time := wrapInt32 (E.atoi s * 1000) }
    | none => Loop.undefined
  else if r.opt = 'e' then
    match r.optarg with
    | some s => Loop.next { L with max_timestep := E.atoi s }
    | none => Loop.undefined
  else if r.opt = 'v' then
    Loop.next { L with verbose := true }
  else if r.opt = 'h' then
    Loop.help
  else if r.opt = 'P' then
    Loop.next { L with make_scen := true }
  else if r.opt = 'L' then
    Loop.next { L with log_short := true }
  else
    Loop.next L

/-- The loop `while ((opt = getopt_long(...)) != -1) switch (opt) ...` run
over the successive returns of `getopt_long`. -/
def optionLoop (E : Env) : Locals → List OptRet → Loop
  | L, [] => Loop.next L
  | L, r :: rs =>
    match switchOpt E L r with
    | Loop.next L1 => optionLoop E L1 rs
    | Loop.help => Loop.help
    | Loop.undefined => Loop.undefined

/-- The line `main` writes when a required path is missing. -/
def specifyText : String :=
  "specify map file using -m [MAPF-FILE], agent file using -a [AGENT-FILE]"

/-- The instance `main` constructs from its locals. -/
def instanceOf (L : Locals) : MAPF_Instance :=
  ⟨L.map_file, L.agent_file, L.agentsNum, L.max_comp_time, L.max_timestep, L.random_seed⟩

/-- The part of `main` between the construction of the instance and the
`make_scen` test. -/
def setProblem (L : Locals) : List Event :=
  [Event.newInstance (instanceOf L)]
  ++ (if L.max_comp_time ≠ -1 then [Event.setMaxCompTime L.max_comp_time] else [])

/-- The part of `main` from `solver->solve()` to its last `return`. -/
def solveAndLog (E : Env) (L : Locals) : List Event :=
  if E.succeed then
    if !E.validate then
      [Event.solve, Event.succeed, Event.validate (instanceOf L),
        Event.cout "error@mapf: invalid results"]
    else
      [Event.solve, Event.succeed, Event.validate (instanceOf L), Event.printResult,
        Event.makeLog L.output_file L.path_file]
      ++ (if L.verbose then [Event.cout ("save result as " ++ L.output_file)] else [])
  else
    [Event.solve, Event.succeed, Event.printResult,
      Event.makeLog L.output_file L.path_file]
    ++ (if L.verbose then [Event.cout ("save result as " ++ L.output_file)] else [])

/-- The part of `main` after the option loop has ended with locals `L`;
`argc` and `argv_copy` are what `main` saved before the loop. -/
def afterOptions (E : Env) (argc : Nat) (argv_copy : List String) (L : Locals) : Outcome :=
  if L.map_file.length = 0 ∨ L.agent_file.length = 0 then
    Outcome.exit 0 [Event.cout specifyText]
  else if L.make_scen then
    Outcome.exit 0 (setProblem L ++ [Event.makeScenFile L.output_file])
  else
    Outcome.exit 0
      (setProblem L
        ++ (getSolver L.solver_name (instanceOf L) L.verbose argc argv_copy).2
        ++ [Event.setLogShort L.log_short]
        ++ solveAndLog E L)

/-- The function `main`, on an argument vector of `argc = argv.length` entries. -/
def main (E : Env) (argv : List String) : Outcome :=
  let argc := argv.length
  let argv_copy := argv.take argc
  match optionLoop E (initLocals E) (E.getopt_long argv).1 with
  | Loop.undefined => Outcome.undefined
  | Loop.help => Outcome.exit 0 printHelp
  | Loop.next L => afterOptions E argc argv_copy L

/-- The assignment made by the case of the `switch` for an option `c` that
takes an argument, given the string `s` built from `optarg`; used to state
what `switchOpt` does (`switchOpt_arg`). -/
def caseOf (E : Env) (L : Locals) (c : Char) (s : String) : Locals :=
  if c = 'm' then { L with map_file := s }
  else if c = 'a' then { L with agent_file := s }
  else if c = 'k' then { L with agentsNum := E.atoi s }
  else if c = 'o' then { L with output_file := s ++ ".csv" }
  else if c = 'p' then { L with path_file := s ++ ".path" }
  else if c = 's' then { L with solver_name := s }
  else if c = 'd' then { L with random_seed := E.atoi s }
  else if c = 't' then { L with max_comp_time := wrapInt32 (E.atoi s * 1000) }
  else if c = 'e' then { L with max_timestep := E.atoi s }
  else L

/-- The option characters the `switch` of `main` has a case for. -/
def knownOpts : List Char :=
  ['m', 'a', 'k', 'o', 'p', 's', 'd', 't', 'e', 'v', 'h', 'P', 'L']

/-- The `optarg` that came with the last return of `getopt_long` whose option
character is `c`, if there is one. -/
def lastArg (c : Char) (rets : List OptRet) : Option String :=
  (rets.reverse.find? (fun r => r.opt = c)).bind OptRet.optarg

/-! ## A concrete environment

Used to run the model on explicit command lines. -/

/-- The value of a run of decimal digits, read left to right. -/
def digitsVal : List Char → Int → Int
  | [], acc => acc
  | c :: cs, acc =>
    if c.isDigit then digitsVal cs (acc * 10 + ((c.toNat : Int) - 48)) else acc

/-- A decimal reader in the manner of `std::atoi`: leading white space, an
optional sign, then digits; anything else ends the number.  Results outside
the range of `int`, which C leaves undefined, are wrapped. -/
def atoiDec (s : String) : Int :=
  match s.data.dropWhile Char.isWhitespace with
  | '-' :: ds => wrapInt32 (- digitsVal ds 0)
  | '+' :: ds => wrapInt32 (digitsVal ds 0)
  | ds => wrapInt32 (digitsVal ds 0)

/-- A reader of short options in the manner of `getopt_long` with the option
string `"m:a:k:o:p:s:d:t:e:vhPL"`: `-c value` for the options that take an
argument, `-c` for the flags, `'?'` for any other `-c`; words that are not
options are skipped. -/
def shortOpts : List String → List OptRet
  | [] => []
  | w :: ws =>
    match w.data with
    | ['-', c] =>
      if c ∈ ['m', 'a', 'k', 'o', 'p', 's', 'd', 't', 'e'] then
        match ws with
        | v :: rest => ⟨c, some v⟩ :: shortOpts rest
        | [] => [⟨'?', none⟩]
      else if c ∈ ['v', 'h', 'P', 'L'] then ⟨c, none⟩ :: shortOpts ws
      else ⟨'?', none⟩ :: shortOpts ws
    | _ => shortOpts ws

/-- An environment with the readers above; the remaining inputs are given. -/
def sampleEnv (seed : Int) (succeed validate : Bool) : Env where
  DEFAULT_OUTPUT_FILE := "./result.txt"
  atoi := atoiDec
  random_seed := seed
  getopt_long := fun argv => (shortOpts argv.tail, argv)
  succeed := succeed
  validate := validate

/-! ## The option loop -/

theorem optionLoop_append (E : Env) (xs ys : List OptRet) (L : Locals) :
    optionLoop E L (xs ++ ys) =
      (match optionLoop E L xs with
        | Loop.next L1 => optionLoop E L1 ys
        | Loop.help => Loop.help
        | Loop.undefined => Loop.undefined) := by
  induction xs generalizing L with
  | nil => simp [optionLoop]
  | cons x xs ih =>
    simp only [List.cons_append, optionLoop]
    cases hx : switchOpt E L x with
    | next L1 => simp [ih]
    | help => rfl
    | undefined => rfl

theorem optionLoop_snoc_next (E : Env) (rs : List OptRet) (r : OptRet) (L L2 : Locals)
    (h : optionLoop E L (rs ++ [r]) = Loop.next L2) :
    ∃ L1, optionLoop E L rs = Loop.next L1 ∧ switchOpt E L1 r = Loop.next L2 := by
  rw [optionLoop_append] at h
  cases h1 : optionLoop E L rs with
  | next L1 =>
    rw [h1] at h
    simp only [optionLoop] at h
    refine ⟨L1, rfl, ?_⟩
    cases h2 : switchOpt E L1 r with
    | next L3 => rw [h2] at h; simpa using h
    | help => rw [h2] at h; simp at h
    | undefined => rw [h2] at h; simp at h
  | help => rw [h1] at h; simp at h
  | undefined => rw [h1] at h; simp at h

/-- A local that only the case for `c` assigns, and assigns from `optarg`,
ends the loop holding the value given by the last `c`. -/
theorem optionLoop_lastArg {α : Type} (E : Env) (f : Locals → α) (g : String → α) (c : Char)
    (hstep : ∀ L r L1, switchOpt E L r = Loop.next L1 →
      (r.opt = c → ∃ s, r.optarg = some s ∧ f L1 = g s) ∧ (r.opt ≠ c → f L1 = f L))
    (rs : List OptRet) (L L2 : Locals) (h : optionLoop E L rs = Loop.next L2) :
    (∀ s, lastArg c rs = some s → f L2 = g s) ∧
    ((∀ r ∈ rs, r.opt ≠ c) → f L2 = f L) ∧
    ((∃ r ∈ rs, r.opt = c) → ∃ s, lastArg c rs = some s) := by
  induction rs using List.reverseRecOn generalizing L2 with
  | nil =>
    simp only [optionLoop, Loop.next.injEq] at h
    subst h
    simp [lastArg]
  | append_singleton rs r ih =>
    obtain ⟨L1, h1, h2⟩ := optionLoop_snoc_next E rs r L L2 h
    obtain ⟨ihA, ihB, ihC⟩ := ih L1 h1
    obtain ⟨hc, hn⟩ := hstep L1 r L2 h2
    by_cases hr : r.opt = c
    · obtain ⟨s, hs, hf⟩ := hc hr
      refine ⟨?_, ?_, ?_⟩
      · intro s1 hs1
        simp [lastArg, hr, hs] at hs1
        subst hs1
        exact hf
      · intro hall
        exact absurd hr (hall r (by simp))
      · intro _
        exact ⟨s, by simp [lastArg, hr, hs]⟩
    · have hlast : lastArg c (rs ++ [r]) = lastArg c rs := by
        simp [lastArg, hr]
      refine ⟨?_, ?_, ?_⟩
      · intro s hs
        rw [hlast] at hs
        rw [hn hr]
        exact ihA s hs
      · intro hall
        rw [hn hr]
        exact ihB (fun x hx => hall x (by simp [hx]))
      · rintro ⟨x, hx, hxc⟩
        rw [hlast]
        simp only [List.mem_append, List.mem_singleton] at hx
        rcases hx with hx | hx
        · exact ihC ⟨x, hx, hxc⟩
        · subst hx
          exact absurd hxc hr

/-! ## What one pass through the `switch` does to each local -/

theorem switchOpt_arg (E : Env) (L : Locals) (r : OptRet)
    (h : r.opt ∈ ['m', 'a', 'k', 'o', 'p', 's', 'd', 't', 'e']) :
    switchOpt E L r =
      (match r.optarg with
        | some s => Loop.next (caseOf E L r.opt s)
        | none => Loop.undefined) := by
  obtain ⟨c, oa⟩ := r
  simp only [List.mem_cons, List.mem_singleton, List.not_mem_nil, or_false] at h
  rcases h with h | h | h | h | h | h | h | h | h <;> subst h <;> cases oa <;>
    simp [switchOpt, caseOf]

theorem switchOpt_flag (E : Env) (L : Locals) (r : OptRet) :
    (r.opt = 'v' → switchOpt E L r = Loop.next { L with verbose := true }) ∧
    (r.opt = 'h' → switchOpt E L r = Loop.help) ∧
    (r.opt = 'P' → switchOpt E L r = Loop.next { L with make_scen := true }) ∧
    (r.opt = 'L' → switchOpt E L r = Loop.next { L with log_short := true }) := by
  refine ⟨?_, ?_, ?_, ?_⟩ <;> intro h <;> simp [switchOpt, h]

theorem switchOpt_default (E : Env) (L : Locals) (r : OptRet) (h : r.opt ∉ knownOpts) :
    switchOpt E L r = Loop.next L := by
  simp only [knownOpts, List.mem_cons, List.mem_singleton, List.not_mem_nil, or_false,
    not_or] at h
  obtain ⟨h1, h2, h3, h4, h5, h6, h7, h8, h9, h10, h11, h12, h13⟩ := h
  simp [switchOpt, h1, h2, h3, h4, h5, h6, h7, h8, h9, h10, h11, h12, h13]

theorem switchOpt_cases (E : Env) (L : Locals) (r : OptRet) :
    (r.opt ∈ ['m', 'a', 'k', 'o', 'p', 's', 'd', 't', 'e'] ∧
      switchOpt E L r =
        (match r.optarg with
          | some s => Loop.next (caseOf E L r.opt s)
          | none => Loop.undefined)) ∨
    (r.opt = 'v' ∧ switchOpt E L r = Loop.next { L with verbose := true }) ∨
    (r.opt = 'h' ∧ switchOpt E L r = Loop.help) ∨
    (r.opt = 'P' ∧ switchOpt E L r = Loop.next { L with make_scen := true }) ∨
    (r.opt = 'L' ∧ switchOpt E L r = Loop.next { L with log_short := true }) ∨
    (r.opt ∉ knownOpts ∧ switchOpt E L r = Loop.next L) := by
  by_cases ha : r.opt ∈ ['m', 'a', 'k', 'o', 'p', 's', 'd', 't', 'e']
  · exact Or.inl ⟨ha, switchOpt_arg E L r ha⟩
  by_cases hv : r.opt = 'v'
  · exact Or.inr (Or.inl ⟨hv, (switchOpt_flag E L r).1 hv⟩)
  by_cases hh : r.opt = 'h'
  · exact Or.inr (Or.inr (Or.inl ⟨hh, (switchOpt_flag E L r).2.1 hh⟩))
  by_cases hP : r.opt = 'P'
  · exact Or.inr (Or.inr (Or.inr (Or.inl ⟨hP, (switchOpt_flag E L r).2.2.1 hP⟩)))
  by_cases hL : r.opt = 'L'
  · exact Or.inr (Or.inr (Or.inr (Or.inr (Or.inl ⟨hL, (switchOpt_flag E L r).2.2.2 hL⟩))))
  have hk : r.opt ∉ knownOpts := by
    simp only [List.mem_cons, List.mem_singleton, List.not_mem_nil, or_false] at ha
    simp only [knownOpts, List.mem_cons, List.mem_singleton, List.not_mem_nil, or_false]
    tauto
  exact Or.inr (Or.inr (Or.inr (Or.inr (Or.inr ⟨hk, switchOpt_default E L r hk⟩))))

theorem switchOpt_max_comp_time (E : Env) (L : Locals) (r : OptRet) (L1 : Locals)
    (h : switchOpt E L r = Loop.next L1) :
    (r.opt = 't' → ∃ s, r.optarg = some s ∧ L1.max_comp_time = wrapInt32 (E.atoi s * 1000)) ∧
    (r.opt ≠ 't' → L1.max_comp_time = L.max_comp_time) := by
  obtain ⟨c, oa⟩ := r
  rcases switchOpt_cases E L ⟨c, oa⟩ with
    ⟨hc, hs⟩ | ⟨hc, hs⟩ | ⟨hc, hs⟩ | ⟨hc, hs⟩ | ⟨hc, hs⟩ | ⟨hc, hs⟩
  · rw [hs] at h
    cases oa with
    | none => simp at h
    | some s =>
      simp only [Loop.next.injEq] at h
      subst h
      simp only [List.mem_cons, List.mem_singleton, List.not_mem_nil, or_false] at hc
      rcases hc with hc | hc | hc | hc | hc | hc | hc | hc | hc <;> subst hc <;> simp [caseOf]
  all_goals
    rw [hs] at h
    try simp only [knownOpts, List.mem_cons, List.mem_singleton, List.not_mem_nil, or_false,
      not_or] at hc
    first
      | (simp only [Loop.next.injEq] at h; subst h; simp [hc])
      | simp at h

theorem switchOpt_output_file (E : Env) (L : Locals) (r : OptRet) (L1 : Locals)
    (h : switchOpt E L r = Loop.next L1) :
    (r.opt = 'o' → ∃ s, r.optarg = some s ∧ L1.output_file = s ++ ".csv") ∧
    (r.opt ≠ 'o' → L1.output_file = L.output_file) := by
  obtain ⟨c, oa⟩ := r
  rcases switchOpt_cases E L ⟨c, oa⟩ with
    ⟨hc, hs⟩ | ⟨hc, hs⟩ | ⟨hc, hs⟩ | ⟨hc, hs⟩ | ⟨hc, hs⟩ | ⟨hc, hs⟩
  · rw [hs] at h
    cases oa with
    | none => simp at h
    | some s =>
      simp only [Loop.next.injEq] at h
      subst h
      simp only [List.mem_cons, List.mem_singleton, List.not_mem_nil, or_false] at hc
      rcases hc with hc | hc | hc | hc | hc | hc | hc | hc | hc <;> subst hc <;> simp [caseOf]
  all_goals
    rw [hs] at h
    try simp only [knownOpts, List.mem_cons, List.mem_singleton, List.not_mem_nil, or_false,
      not_or] at hc
    first
      | (simp only [Loop.next.injEq] at h; subst h; simp [hc])
      | simp at h

theorem switchOpt_solver_name (E : Env) (L : Locals) (r : OptRet) (L1 : Locals)
    (h : switchOpt E L r = Loop.next L1) :
    (r.opt = 's' → ∃ s, r.optarg = some s ∧ L1.solver_name = s) ∧
    (r.opt ≠ 's' → L1.solver_name = L.solver_name) := by
  obtain ⟨c, oa⟩ := r
  rcases switchOpt_cases E L ⟨c, oa⟩ with
    ⟨hc, hs⟩ | ⟨hc, hs⟩ | ⟨hc, hs⟩ | ⟨hc, hs⟩ | ⟨hc, hs⟩ | ⟨hc, hs⟩
  · rw [hs] at h
    cases oa with
    | none => simp at h
    | some s =>
      simp only [Loop.next.injEq] at h
      subst h
      simp only [List.mem_cons, List.mem_singleton, List.not_mem_nil, or_false] at hc
      rcases hc with hc | hc | hc | hc | hc | hc | hc | hc | hc <;> subst hc <;> simp [caseOf]
  all_goals
    rw [hs] at h
    try simp only [knownOpts, List.mem_cons, List.mem_singleton, List.not_mem_nil, or_false,
      not_or] at hc
    first
      | (simp only [Loop.next.injEq] at h; subst h; simp [hc])
      | simp at h

theorem switchOpt_map_file (E : Env) (L : Locals) (r : OptRet) (L1 : Locals)
    (h : switchOpt E L r = Loop.next L1) :
    (r.opt = 'm' → ∃ s, r.optarg = some s ∧ L1.map_file = s) ∧
    (r.opt ≠ 'm' → L1.map_file = L.map_file) := by
  obtain ⟨c, oa⟩ := r
  rcases switchOpt_cases E L ⟨c, oa⟩ with
    ⟨hc, hs⟩ | ⟨hc, hs⟩ | ⟨hc, hs⟩ | ⟨hc, hs⟩ | ⟨hc, hs⟩ | ⟨hc, hs⟩
  · rw [hs] at h
    cases oa with
    | none => simp at h
    | some s =>
      simp only [Loop.next.injEq] at h
      subst h
      simp only [List.mem_cons, List.mem_singleton, List.not_mem_nil, or_false] at hc
      rcases hc with hc | hc | hc | hc | hc | hc | hc | hc | hc <;> subst hc <;> simp [caseOf]
  all_goals
    rw [hs] at h
    try simp only [knownOpts, List.mem_cons, List.mem_singleton, List.not_mem_nil, or_false,
      not_or] at hc
    first
      | (simp only [Loop.next.injEq] at h; subst h; simp [hc])
      | simp at h

theorem switchOpt_agent_file (E : Env) (L : Locals) (r : OptRet) (L1 : Locals)
    (h : switchOpt E L r = Loop.next L1) :
    (r.opt = 'a' → ∃ s, r.optarg = some s ∧ L1.agent_file = s) ∧
    (r.opt ≠ 'a' → L1.agent_file = L.agent_file) := by
  obtain ⟨c, oa⟩ := r
  rcases switchOpt_cases E L ⟨c, oa⟩ with
    ⟨hc, hs⟩ | ⟨hc, hs⟩ | ⟨hc, hs⟩ | ⟨hc, hs⟩ | ⟨hc, hs⟩ | ⟨hc, hs⟩
  · rw [hs] at h
    cases oa with
    | none => simp at h
    | some s =>
      simp only [Loop.next.injEq] at h
      subst h
      simp only [List.mem_cons, List.mem_singleton, List.not_mem_nil, or_false] at hc
      rcases hc with hc | hc | hc | hc | hc | hc | hc | hc | hc <;> subst hc <;> simp [caseOf]
  all_goals
    rw [hs] at h
    try simp only [knownOpts, List.mem_cons, List.mem_singleton, List.not_mem_nil, or_false,
      not_or] at hc
    first
      | (simp only [Loop.next.injEq] at h; subst h; simp [hc])
      | simp at h

theorem switchOpt_random_seed (E : Env) (L : Locals) (r : OptRet) (L1 : Locals)
    (h : switchOpt E L r = Loop.next L1) :
    (r.opt = 'd' → ∃ s, r.optarg = some s ∧ L1.random_seed = E.atoi s) ∧
    (r.opt ≠ 'd' → L1.random_seed = L.random_seed) := by
  obtain ⟨c, oa⟩ := r
  rcases switchOpt_cases E L ⟨c, oa⟩ with
    ⟨hc, hs⟩ | ⟨hc, hs⟩ | ⟨hc, hs⟩ | ⟨hc, hs⟩ | ⟨hc, hs⟩ | ⟨hc, hs⟩
  · rw [hs] at h
    cases oa with
    | none => simp at h
    | some s =>
      simp only [Loop.next.injEq] at h
      subst h
      simp only [List.mem_cons, List.mem_singleton, List.not_mem_nil, or_false] at hc
      rcases hc with hc | hc | hc | hc | hc | hc | hc | hc | hc <;> subst hc <;> simp [caseOf]
  all_goals
    rw [hs] at h
    try simp only [knownOpts, List.mem_cons, List.mem_singleton, List.not_mem_nil, or_false,
      not_or] at hc
    first
      | (simp only [Loop.next.injEq] at h; subst h; simp [hc])
      | simp at h

theorem switchOpt_make_scen (E : Env) (L : Locals) (r : OptRet) (L1 : Locals)
    (h : switchOpt E L r = Loop.next L1) :
    L1.make_scen = (L.make_scen || decide (r.opt = 'P')) := by
  obtain ⟨c, oa⟩ := r
  rcases switchOpt_cases E L ⟨c, oa⟩ with
    ⟨hc, hs⟩ | ⟨hc, hs⟩ | ⟨hc, hs⟩ | ⟨hc, hs⟩ | ⟨hc, hs⟩ | ⟨hc, hs⟩
  · rw [hs] at h
    cases oa with
    | none => simp at h
    | some s =>
      simp only [Loop.next.injEq] at h
      subst h
      simp only [List.mem_cons, List.mem_singleton, List.not_mem_nil, or_false] at hc
      rcases hc with hc | hc | hc | hc | hc | hc | hc | hc | hc <;> subst hc <;> simp [caseOf]
  all_goals
    rw [hs] at h
    try simp only [knownOpts, List.mem_cons, List.mem_singleton, List.not_mem_nil, or_false,
      not_or] at hc
    first
      | (simp only [Loop.next.injEq] at h; subst h; simp [hc])
      | simp at h

theorem optionLoop_make_scen (E : Env) (rs : List OptRet) (L L2 : Locals)
    (h : optionLoop E L rs = Loop.next L2) :
    L2.make_scen = true ↔ (L.make_scen = true ∨ ∃ r ∈ rs, r.opt = 'P') := by
  induction rs generalizing L with
  | nil =>
    simp only [optionLoop, Loop.next.injEq] at h
    subst h
    simp
  | cons r rs ih =>
    simp only [optionLoop] at h
    cases h1 : switchOpt E L r with
    | next L1 =>
      rw [h1] at h
      rw [ih L1 h, switchOpt_make_scen E L r L1 h1]
      simp [or_assoc]
    | help => rw [h1] at h; simp at h
    | undefined => rw [h1] at h; simp at h

/-- One pass through the `switch` goes on to the next call of `getopt_long`
unless the option is `-h` or an option that reads `optarg` came with none. -/
theorem switchOpt_next_iff (E : Env) (L : Locals) (r : OptRet) :
    (∃ L1, switchOpt E L r = Loop.next L1) ↔
      (r.opt ≠ 'h' ∧
        (r.opt ∈ ['m', 'a', 'k', 'o', 'p', 's', 'd', 't', 'e'] → r.optarg ≠ none)) := by
  obtain ⟨c, oa⟩ := r
  rcases switchOpt_cases E L ⟨c, oa⟩ with
    ⟨hc, hs⟩ | ⟨hc, hs⟩ | ⟨hc, hs⟩ | ⟨hc, hs⟩ | ⟨hc, hs⟩ | ⟨hc, hs⟩
  · rw [hs]
    have hne : c ≠ 'h' := by
      rintro rfl
      simp at hc
    cases oa with
    | none => simp [hc]
    | some s => simp [hne]
  · simp only at hc
    subst hc
    rw [hs]
    simp
  · simp only at hc
    subst hc
    rw [hs]
    simp
  · simp only at hc
    subst hc
    rw [hs]
    simp
  · simp only at hc
    subst hc
    rw [hs]
    simp
  · rw [hs]
    simp only [knownOpts, List.mem_cons, List.mem_singleton, List.not_mem_nil, or_false,
      not_or] at hc
    simp [hc]

/-- The option loop runs to its end exactly when no `-h` is met and every
option that reads `optarg` comes with one. -/
theorem optionLoop_next_iff (E : Env) (rs : List OptRet) (L : Locals) :
    (∃ L2, optionLoop E L rs = Loop.next L2) ↔
      ∀ r ∈ rs, r.opt ≠ 'h' ∧
        (r.opt ∈ ['m', 'a', 'k', 'o', 'p', 's', 'd', 't', 'e'] → r.optarg ≠ none) := by
  induction rs generalizing L with
  | nil => simp [optionLoop]
  | cons r rs ih =>
    simp only [optionLoop, List.forall_mem_cons, ← switchOpt_next_iff E L r]
    cases h1 : switchOpt E L r with
    | next L1 =>
      simp only [ih L1]
      simp
    | help => simp
    | undefined => simp

/-! ## The shape of a run of `main` -/

theorem main_next (E : Env) (argv : List String) (L : Locals)
    (h : optionLoop E (initLocals E) (E.getopt_long argv).1 = Loop.next L) :
    main E argv = afterOptions E argv.length argv L := by
  simp [main, h]

theorem length_eq_zero_iff_empty (s : String) : s.length = 0 ↔ s = "" := by
  constructor
  · intro h
    cases s with
    | mk d =>
      simp only [String.length, List.length_eq_zero] at h
      subst h
      rfl
  · intro h
    subst h
    rfl

theorem afterOptions_missing (E : Env) (argc : Nat) (argv : List String) (L : Locals)
    (h : L.map_file = "" ∨ L.agent_file = "") :
    afterOptions E argc argv L = Outcome.exit 0 [Event.cout specifyText] := by
  have h1 : L.map_file.length = 0 ∨ L.agent_file.length = 0 := by
    rcases h with h | h <;> simp [h]
  simp [afterOptions, h1]

theorem afterOptions_present (E : Env) (argc : Nat) (argv : List String) (L : Locals)
    (hm : L.map_file ≠ "") (ha : L.agent_file ≠ "") :
    afterOptions E argc argv L =
      (if L.make_scen then
        Outcome.exit 0 (setProblem L ++ [Event.makeScenFile L.output_file])
      else
        Outcome.exit 0
          (setProblem L
            ++ (getSolver L.solver_name (instanceOf L) L.verbose argc argv).2
            ++ [Event.setLogShort L.log_short]
            ++ solveAndLog E L)) := by
  have h1 : ¬ (L.map_file.length = 0 ∨ L.agent_file.length = 0) := by
    rw [length_eq_zero_iff_empty, length_eq_zero_iff_empty]
    tauto
  simp [afterOptions, h1]

/-- Every run that leaves `main` through a `return` has status `0` and one of
four traces. -/
theorem main_exit_cases (E : Env) (argv : List String) (s : Int) (t : List Event)
    (h : main E argv = Outcome.exit s t) :
    s = 0 ∧
    (t = printHelp ∨
      ∃ L, optionLoop E (initLocals E) (E.getopt_long argv).1 = Loop.next L ∧
        (((L.map_file = "" ∨ L.agent_file = "") ∧ t = [Event.cout specifyText]) ∨
         (L.map_file ≠ "" ∧ L.agent_file ≠ "" ∧ L.make_scen = true ∧
            t = setProblem L ++ [Event.makeScenFile L.output_file]) ∨
         (L.map_file ≠ "" ∧ L.agent_file ≠ "" ∧ L.make_scen = false ∧
            t = setProblem L
              ++ (getSolver L.solver_name (instanceOf L) L.verbose argv.length argv).2
              ++ [Event.setLogShort L.log_short]
              ++ solveAndLog E L))) := by
  cases hl : optionLoop E (initLocals E) (E.getopt_long argv).1 with
  | undefined => simp [main, hl] at h
  | help =>
    simp only [main, hl, Outcome.exit.injEq] at h
    exact ⟨h.1.symm, Or.inl h.2.symm⟩
  | next L =>
    rw [main_next E argv L hl] at h
    by_cases hmiss : L.map_file = "" ∨ L.agent_file = ""
    · rw [afterOptions_missing E _ _ L hmiss] at h
      simp only [Outcome.exit.injEq] at h
      exact ⟨h.1.symm, Or.inr ⟨L, rfl, Or.inl ⟨hmiss, h.2.symm⟩⟩⟩
    · have hm : L.map_file ≠ "" := fun hx => hmiss (Or.inl hx)
      have ha : L.agent_file ≠ "" := fun hx => hmiss (Or.inr hx)
      rw [afterOptions_present E _ _ L hm ha] at h
      cases hs : L.make_scen with
      | true =>
        simp only [hs, if_true, Outcome.exit.injEq] at h
        exact ⟨h.1.symm, Or.inr ⟨L, rfl, Or.inr (Or.inl ⟨hm, ha, hs, h.2.symm⟩)⟩⟩
      | false =>
        simp only [hs, Bool.false_eq_true, if_false, Outcome.exit.injEq] at h
        exact ⟨h.1.symm, Or.inr ⟨L, rfl, Or.inr (Or.inr ⟨hm, ha, hs, h.2.symm⟩)⟩⟩

theorem getSolver_unknown (solver_name : String) (P : MAPF_Instance) (verbose : Bool)
    (argc : Nat) (argv : List String)
    (h1 : solver_name ≠ "PIBT") (h2 : solver_name ≠ "HCA")
    (h3 : solver_name ≠ "PIBT_PLUS") (h4 : solver_name ≠ "PushAndSwap") :
    getSolver solver_name P verbose argc argv =
      (⟨SolverKind.PIBT, P⟩,
        [Event.cout (warnText solver_name), Event.make_unique SolverKind.PIBT P,
          Event.setParams argc argv, Event.setVerbose verbose]) := by
  simp [getSolver, h1, h2, h3, h4]

theorem solve_mem_solveAndLog (E : Env) (L : Locals) : Event.solve ∈ solveAndLog E L := by
  unfold solveAndLog
  split_ifs <;> simp

theorem mem_setProblem (L : Locals) (e : Event) :
    e ∈ setProblem L ↔
      (e = Event.newInstance (instanceOf L) ∨
        (L.max_comp_time ≠ -1 ∧ e = Event.setMaxCompTime L.max_comp_time)) := by
  unfold setProblem
  split_ifs with h <;> simp [h]

theorem mem_getSolver (solver_name : String) (P : MAPF_Instance) (verbose : Bool)
    (argc : Nat) (argv : List String) (e : Event)
    (h : e ∈ (getSolver solver_name P verbose argc argv).2) :
    (∃ line, e = Event.cout line ∧ line = warnText solver_name) ∨
    (∃ k, e = Event.make_unique k P) ∨
    e = Event.setParams argc argv ∨ e = Event.setVerbose verbose := by
  unfold getSolver at h
  simp only [List.mem_append, List.mem_cons, List.mem_singleton, List.not_mem_nil,
    or_false] at h
  rcases h with h | h | h
  · split_ifs at h
    · exact Or.inr (Or.inl ⟨_, by simpa using h⟩)
    · exact Or.inr (Or.inl ⟨_, by simpa using h⟩)
    · exact Or.inr (Or.inl ⟨_, by simpa using h⟩)
    · exact Or.inr (Or.inl ⟨_, by simpa using h⟩)
    · simp only [List.mem_cons, List.mem_singleton, List.not_mem_nil, or_false] at h
      rcases h with h | h
      · exact Or.inl ⟨_, h, rfl⟩
      · exact Or.inr (Or.inl ⟨_, h⟩)
  · exact Or.inr (Or.inr (Or.inl h))
  · exact Or.inr (Or.inr (Or.inr h))

theorem mem_solveAndLog (E : Env) (L : Locals) (e : Event) :
    e ∈ solveAndLog E L ↔
      (e = Event.solve ∨ e = Event.succeed ∨
        (E.succeed = true ∧ e = Event.validate (instanceOf L)) ∨
        (E.succeed = true ∧ E.validate = false ∧ e = Event.cout "error@mapf: invalid results") ∨
        (¬ (E.succeed = true ∧ E.validate = false) ∧
          (e = Event.printResult ∨ e = Event.makeLog L.output_file L.path_file ∨
            (L.verbose = true ∧ e = Event.cout ("save result as " ++ L.output_file))))) := by
  unfold solveAndLog
  cases hs : E.succeed <;> cases hv : E.validate <;> cases hb : L.verbose <;> simp

/-- Membership in the trace of a run that selects a solver, for an event that
neither the instance set-up nor `getSolver` nor `setLogShort` can be. -/
theorem mem_solver_run (E : Env) (L : Locals) (argc : Nat) (argv : List String) (e : Event)
    (h1 : ∀ P, e ≠ Event.newInstance P) (h2 : ∀ x, e ≠ Event.setMaxCompTime x)
    (h3 : ∀ line, e ≠ Event.cout line) (h4 : ∀ k P, e ≠ Event.make_unique k P)
    (h5 : ∀ n a, e ≠ Event.setParams n a) (h6 : ∀ b, e ≠ Event.setVerbose b)
    (h7 : ∀ b, e ≠ Event.setLogShort b) :
    e ∈ setProblem L
        ++ (getSolver L.solver_name (instanceOf L) L.verbose argc argv).2
        ++ [Event.setLogShort L.log_short]
        ++ solveAndLog E L ↔ e ∈ solveAndLog E L := by
  simp only [List.mem_append, List.mem_singleton, mem_setProblem]
  constructor
  · rintro ((((h | h) | h) | h) | h)
    · exact absurd h (h1 _)
    · exact absurd h.2 (h2 _)
    · rcases mem_getSolver _ _ _ _ _ _ h with ⟨l, hl, -⟩ | ⟨k, hk⟩ | hp | hv
      · exact absurd hl (h3 _)
      · exact absurd hk (h4 _ _)
      · exact absurd hp (h5 _ _)
      · exact absurd hv (h6 _)
    · exact absurd h (h7 _)
    · exact h
  · intro h
    exact Or.inr h

/-! ## The claims -/

/-- C1. A solver name other than the four known ones makes `getSolver` return
a PIBT solver on the given instance, after writing exactly one warning line and
before calling `setParams` and `setVerbose` on it; nothing in `getSolver` can
fail.  In `main`, when the option loop ends with such a name and the run
reaches the solver selection, the run goes on to `solve()` and leaves with
status 0.  The name is the empty string when no `-s` was parsed. -/
theorem C1_unknown_solver_falls_back_to_PIBT (solver_name : String)
    (h1 : solver_name ≠ "PIBT") (h2 : solver_name ≠ "HCA")
    (h3 : solver_name ≠ "PIBT_PLUS") (h4 : solver_name ≠ "PushAndSwap") :
    (∀ (P : MAPF_Instance) (verbose : Bool) (argc : Nat) (argv : List String),
      getSolver solver_name P verbose argc argv =
        (⟨SolverKind.PIBT, P⟩,
          [Event.cout (warnText solver_name), Event.make_unique SolverKind.PIBT P,
            Event.setParams argc argv, Event.setVerbose verbose])) ∧
    (∀ (E : Env) (argv : List String) (L : Locals),
      optionLoop E (initLocals E) (E.getopt_long argv).1 = Loop.next L →
      L.map_file ≠ "" → L.agent_file ≠ "" → L.make_scen = false →
      L.solver_name = solver_name →
      main E argv = Outcome.exit 0
        (setProblem L
          ++ [Event.cout (warnText solver_name),
              Event.make_unique SolverKind.PIBT (instanceOf L),
              Event.setParams argv.length argv, Event.setVerbose L.verbose]
          ++ [Event.setLogShort L.log_short]
          ++ solveAndLog E L)
      ∧ Event.solve ∈ solveAndLog E L) ∧
    (∀ (E : Env) (argv : List String) (L : Locals),
      optionLoop E (initLocals E) (E.getopt_long argv).1 = Loop.next L →
      (∀ r ∈ (E.getopt_long argv).1, r.opt ≠ 's') →
      L.solver_name = "" ∧
      "" ≠ "PIBT" ∧ "" ≠ "HCA" ∧ "" ≠ "PIBT_PLUS" ∧ "" ≠ "PushAndSwap") := by
  refine ⟨?_, ?_, ?_⟩
  · intro P verbose argc argv
    exact getSolver_unknown solver_name P verbose argc argv h1 h2 h3 h4
  · intro E argv L hl hm ha hs hn
    refine ⟨?_, solve_mem_solveAndLog E L⟩
    rw [main_next E argv L hl, afterOptions_present E _ _ L hm ha, hs, hn,
      getSolver_unknown solver_name _ _ _ _ h1 h2 h3 h4]
    simp
  · intro E argv L hl hno
    refine ⟨?_, by decide, by decide, by decide, by decide⟩
    have := (optionLoop_lastArg E Locals.solver_name id 's'
      (fun L r L1 h => by simpa using switchOpt_solver_name E L r L1 h)
      (E.getopt_long argv).1 (initLocals E) L hl).2.1 hno
    simpa [initLocals] using this

theorem C1_witness :
    ("FOO" ≠ "PIBT" ∧ "FOO" ≠ "HCA" ∧ "FOO" ≠ "PIBT_PLUS" ∧ "FOO" ≠ "PushAndSwap") ∧
    getSolver "FOO" ⟨"a.map", "b.scen", 0, -1, -1, 7⟩ true 3 ["mapf", "-s", "FOO"] =
      (⟨SolverKind.PIBT, ⟨"a.map", "b.scen", 0, -1, -1, 7⟩⟩,
        [Event.cout "warn@mapf: unknown solver name, FOO, continue by PIBT",
          Event.make_unique SolverKind.PIBT ⟨"a.map", "b.scen", 0, -1, -1, 7⟩,
          Event.setParams 3 ["mapf", "-s", "FOO"], Event.setVerbose true]) :=
  ⟨⟨by decide, by decide, by decide, by decide⟩,
    (C1_unknown_solver_falls_back_to_PIBT "FOO" (by decide) (by decide) (by decide)
      (by decide)).1 ⟨"a.map", "b.scen", 0, -1, -1, 7⟩ true 3 ["mapf", "-s", "FOO"]⟩

/-- C2. Each of the four names, matched exactly, makes `getSolver` return the
solver class of that name on the given instance, with no line written to
`std::cout`; the four names go to four different classes, and a name that
differs only in case is not one of them. -/
theorem C2_known_names_select_their_solver (P : MAPF_Instance) (verbose : Bool)
    (argc : Nat) (argv : List String) :
    getSolver "PIBT" P verbose argc argv =
      (⟨SolverKind.PIBT, P⟩,
        [Event.make_unique SolverKind.PIBT P, Event.setParams argc argv,
          Event.setVerbose verbose]) ∧
    getSolver "HCA" P verbose argc argv =
      (⟨SolverKind.HCA, P⟩,
        [Event.make_unique SolverKind.HCA P, Event.setParams argc argv,
          Event.setVerbose verbose]) ∧
    getSolver "PIBT_PLUS" P verbose argc argv =
      (⟨SolverKind.PIBT_PLUS, P⟩,
        [Event.make_unique SolverKind.PIBT_PLUS P, Event.setParams argc argv,
          Event.setVerbose verbose]) ∧
    getSolver "PushAndSwap" P verbose argc argv =
      (⟨SolverKind.PushAndSwap, P⟩,
        [Event.make_unique SolverKind.PushAndSwap P, Event.setParams argc argv,
          Event.setVerbose verbose]) ∧
    (["PIBT", "HCA", "PIBT_PLUS", "PushAndSwap"].map
        (fun name => (getSolver name P verbose argc argv).1.kind)).Nodup ∧
    (∀ name, (∃ line, Event.cout line ∈ (getSolver name P verbose argc argv).2) ↔
      name ∉ ["PIBT", "HCA", "PIBT_PLUS", "PushAndSwap"]) ∧
    (∃ line, Event.cout line ∈ (getSolver "pibt" P verbose argc argv).2) := by
  have hall : ∀ name, (∃ line, Event.cout line ∈ (getSolver name P verbose argc argv).2) ↔
      name ∉ ["PIBT", "HCA", "PIBT_PLUS", "PushAndSwap"] := by
    intro name
    by_cases h1 : name = "PIBT"
    · subst h1; simp [getSolver]
    by_cases h2 : name = "HCA"
    · subst h2; simp [getSolver]
    by_cases h3 : name = "PIBT_PLUS"
    · subst h3; simp [getSolver]
    by_cases h4 : name = "PushAndSwap"
    · subst h4; simp [getSolver]
    simp [getSolver, h1, h2, h3, h4]
  refine ⟨by simp [getSolver], by simp [getSolver], by simp [getSolver], by simp [getSolver],
    by simp [getSolver], hall, ?_⟩
  exact (hall "pibt").2 (by decide)

/-- C3. When the option loop runs to its end (so no `-h` was met) and leaves the
map path or the agent path empty, `main` writes the one line that asks for `-m`
and `-a` and returns 0; the instance is not constructed, no solver is selected
or run, and neither `makeLog` nor `makeScenFile` is called.  A path is empty
in particular when its option is missing. -/
theorem C3_missing_path_prints_usage_and_returns_zero (E : Env) (argv : List String)
    (L : Locals)
    (hloop : optionLoop E (initLocals E) (E.getopt_long argv).1 = Loop.next L)
    (hmissing : L.map_file = "" ∨ L.agent_file = "") :
    main E argv = Outcome.exit 0
      [Event.cout "specify map file using -m [MAPF-FILE], agent file using -a [AGENT-FILE]"] ∧
    (∀ r ∈ (E.getopt_long argv).1, r.opt ≠ 'h') ∧
    ((∀ r ∈ (E.getopt_long argv).1, r.opt ≠ 'm') → L.map_file = "") ∧
    ((∀ r ∈ (E.getopt_long argv).1, r.opt ≠ 'a') → L.agent_file = "") := by
  refine ⟨?_, ?_, ?_, ?_⟩
  · rw [main_next E argv L hloop, afterOptions_missing E _ _ L hmissing]
    rfl
  · intro r hr
    exact (((optionLoop_next_iff E (E.getopt_long argv).1 (initLocals E)).1 ⟨L, hloop⟩) r hr).1
  · intro hno
    have := (optionLoop_lastArg E Locals.map_file id 'm'
      (fun L r L1 h => by simpa using switchOpt_map_file E L r L1 h)
      (E.getopt_long argv).1 (initLocals E) L hloop).2.1 hno
    simpa [initLocals] using this
  · intro hno
    have := (optionLoop_lastArg E Locals.agent_file id 'a'
      (fun L r L1 h => by simpa using switchOpt_agent_file E L r L1 h)
      (E.getopt_long argv).1 (initLocals E) L hloop).2.1 hno
    simpa [initLocals] using this

theorem C3_witness :
    main (sampleEnv 0 true true) ["mapf", "-m", "a.map", "-o", "out", "-s", "HCA"] =
      Outcome.exit 0
        [Event.cout "specify map file using -m [MAPF-FILE], agent file using -a [AGENT-FILE]"] :=
  (C3_missing_path_prints_usage_and_returns_zero (sampleEnv 0 true true)
    ["mapf", "-m", "a.map", "-o", "out", "-s", "HCA"]
    { map_file := "a.map", agent_file := "", agentsNum := 0, output_file := "out.csv",
      path_file := "./result.txt", solver_name := "HCA", verbose := false,
      make_scen := false, log_short := false, max_comp_time := -1, max_timestep := -1,
      random_seed := 0 }
    rfl (Or.inr rfl)).1

/-- C4. In a run that reaches `solve()`, if `succeed()` answers true and
`validate` answers false, `main` ends by writing "error@mapf: invalid results"
and returns 0; `printResult` and `makeLog` are not called. -/
theorem C4_invalid_result_is_reported_not_logged (E : Env) (argv : List String)
    (s : Int) (t : List Event)
    (hrun : main E argv = Outcome.exit s t) (hsolve : Event.solve ∈ t)
    (hsucc : E.succeed = true) (hval : E.validate = false) :
    s = 0 ∧
    t.getLast? = some (Event.cout "error@mapf: invalid results") ∧
    Event.printResult ∉ t ∧
    (∀ o p, Event.makeLog o p ∉ t) ∧
    (∀ o, Event.makeScenFile o ∉ t) := by
  obtain ⟨hs, hcases⟩ := main_exit_cases E argv s t hrun
  refine ⟨hs, ?_⟩
  rcases hcases with ht | ⟨L, -, ⟨-, ht⟩ | ⟨-, -, -, ht⟩ | ⟨-, -, -, ht⟩⟩
  · subst ht; simp [printHelp] at hsolve
  · subst ht; simp at hsolve
  · subst ht
    simp [mem_setProblem] at hsolve
  · subst ht
    have hsl : solveAndLog E L = [Event.solve, Event.succeed, Event.validate (instanceOf L),
        Event.cout "error@mapf: invalid results"] := by
      simp [solveAndLog, hsucc, hval]
    refine ⟨by rw [hsl]; simp, ?_, ?_, ?_⟩
    · rw [mem_solver_run E L _ _ _ (by simp) (by simp) (by simp) (by simp) (by simp)
        (by simp) (by simp), hsl]
      simp
    · intro o p
      rw [mem_solver_run E L _ _ _ (by simp) (by simp) (by simp) (by simp) (by simp)
        (by simp) (by simp), hsl]
      simp
    · intro o
      rw [mem_solver_run E L _ _ _ (by simp) (by simp) (by simp) (by simp) (by simp)
        (by simp) (by simp), hsl]
      simp

theorem C4_witness :
    (0 : Int) = 0 ∧
    [Event.newInstance ⟨"a.map", "b.scen", 0, -1, -1, 0⟩,
      Event.make_unique SolverKind.HCA ⟨"a.map", "b.scen", 0, -1, -1, 0⟩,
      Event.setParams 7 ["mapf", "-m", "a.map", "-a", "b.scen", "-s", "HCA"],
      Event.setVerbose false, Event.setLogShort false, Event.solve, Event.succeed,
      Event.validate ⟨"a.map", "b.scen", 0, -1, -1, 0⟩,
      Event.cout "error@mapf: invalid results"].getLast?
      = some (Event.cout "error@mapf: invalid results") ∧
    Event.printResult ∉
      [Event.newInstance ⟨"a.map", "b.scen", 0, -1, -1, 0⟩,
      Event.make_unique SolverKind.HCA ⟨"a.map", "b.scen", 0, -1, -1, 0⟩,
      Event.setParams 7 ["mapf", "-m", "a.map", "-a", "b.scen", "-s", "HCA"],
      Event.setVerbose false, Event.setLogShort false, Event.solve, Event.succeed,
      Event.validate ⟨"a.map", "b.scen", 0, -1, -1, 0⟩,
      Event.cout "error@mapf: invalid results"] ∧
    (∀ o p, Event.makeLog o p ∉
      [Event.newInstance ⟨"a.map", "b.scen", 0, -1, -1, 0⟩,
      Event.make_unique SolverKind.HCA ⟨"a.map", "b.scen", 0, -1, -1, 0⟩,
      Event.setParams 7 ["mapf", "-m", "a.map", "-a", "b.scen", "-s", "HCA"],
      Event.setVerbose false, Event.setLogShort false, Event.solve, Event.succeed,
      Event.validate ⟨"a.map", "b.scen", 0, -1, -1, 0⟩,
      Event.cout "error@mapf: invalid results"]) ∧
    (∀ o, Event.makeScenFile o ∉
      [Event.newInstance ⟨"a.map", "b.scen", 0, -1, -1, 0⟩,
      Event.make_unique SolverKind.HCA ⟨"a.map", "b.scen", 0, -1, -1, 0⟩,
      Event.setParams 7 ["mapf", "-m", "a.map", "-a", "b.scen", "-s", "HCA"],
      Event.setVerbose false, Event.setLogShort false, Event.solve, Event.succeed,
      Event.validate ⟨"a.map", "b.scen", 0, -1, -1, 0⟩,
      Event.cout "error@mapf: invalid results"]) :=
  C4_invalid_result_is_reported_not_logged (sampleEnv 0 true false)
    ["mapf", "-m", "a.map", "-a", "b.scen", "-s", "HCA"] 0 _ rfl (by simp) rfl rfl

theorem wrapInt32_mul_1000_ne (n : Int) : wrapInt32 (n * 1000) ≠ -1 := by
  unfold wrapInt32
  omega

/-- C6. In a run whose option loop ends with both paths present, the instance
is constructed once, with the locals as arguments.  If the last `-t` came with
the string `v`, the constructor receives `atoi(v) * 1000` computed in 32-bit
`int` arithmetic as `max_comp_time`, and `setMaxCompTime` is called with the
same number; if no `-t` was parsed, the constructor receives `-1` and
`setMaxCompTime` is not called.  So `setMaxCompTime` is called exactly when a
`-t` was parsed: a multiple of 1000 is never `-1`, also after wrapping. -/
theorem C6_time_limit_seconds_to_milliseconds (E : Env) (argv : List String) (L : Locals)
    (hloop : optionLoop E (initLocals E) (E.getopt_long argv).1 = Loop.next L)
    (hmap : L.map_file ≠ "") (hagent : L.agent_file ≠ "") :
    ∃ t, main E argv = Outcome.exit 0 t ∧
      (∀ P, Event.newInstance P ∈ t ↔ P = instanceOf L) ∧
      (∀ v, lastArg 't' (E.getopt_long argv).1 = some v →
        (instanceOf L).max_comp_time = wrapInt32 (E.atoi v * 1000) ∧
        ∀ x, Event.setMaxCompTime x ∈ t ↔ x = wrapInt32 (E.atoi v * 1000)) ∧
      ((∀ r ∈ (E.getopt_long argv).1, r.opt ≠ 't') →
        (instanceOf L).max_comp_time = -1 ∧ ∀ x, Event.setMaxCompTime x ∉ t) ∧
      ((∃ x, Event.setMaxCompTime x ∈ t) ↔ ∃ r ∈ (E.getopt_long argv).1, r.opt = 't') ∧
      (∀ n : Int, wrapInt32 (n * 1000) ≠ -1) := by
  obtain ⟨hA, hB, hC⟩ := optionLoop_lastArg E Locals.max_comp_time
    (fun v => wrapInt32 (E.atoi v * 1000)) 't'
    (fun L r L1 h => switchOpt_max_comp_time E L r L1 h)
    (E.getopt_long argv).1 (initLocals E) L hloop
  have hinit : (initLocals E).max_comp_time = -1 := rfl
  have hmem : ∀ t1 : List Event,
      (∀ P, Event.newInstance P ∈ setProblem L ++ t1 ↔
        (P = instanceOf L ∨ Event.newInstance P ∈ t1)) ∧
      (∀ x, Event.setMaxCompTime x ∈ setProblem L ++ t1 ↔
        ((L.max_comp_time ≠ -1 ∧ x = L.max_comp_time) ∨ Event.setMaxCompTime x ∈ t1)) := by
    intro t1
    constructor
    · intro P
      simp only [setProblem]
      split_ifs <;> simp
    · intro x
      simp only [setProblem]
      split_ifs with h <;> simp [h]
  have hmain := main_next E argv L hloop
  rw [afterOptions_present E _ _ L hmap hagent] at hmain
  -- the tail of the trace holds no such event
  have htail : ∃ t1, main E argv = Outcome.exit 0 (setProblem L ++ t1) ∧
      (∀ P, Event.newInstance P ∉ t1) ∧ (∀ x, Event.setMaxCompTime x ∉ t1) := by
    cases hs : L.make_scen with
    | true =>
      refine ⟨[Event.makeScenFile L.output_file], ?_, ?_, ?_⟩
      · rw [hmain, hs]; simp
      · intro P; simp
      · intro x; simp
    | false =>
      refine ⟨(getSolver L.solver_name (instanceOf L) L.verbose argv.length argv).2
            ++ [Event.setLogShort L.log_short] ++ solveAndLog E L, ?_, ?_, ?_⟩
      · rw [hmain, hs]; simp
      · intro P
        simp only [getSolver, solveAndLog]
        split_ifs <;> simp
      · intro x
        simp only [getSolver, solveAndLog]
        split_ifs <;> simp
  obtain ⟨t1, ht, hP, hx⟩ := htail
  obtain ⟨hmP, hmx⟩ := hmem t1
  have hiff : ∀ x, Event.setMaxCompTime x ∈ setProblem L ++ t1 ↔
      (L.max_comp_time ≠ -1 ∧ x = L.max_comp_time) := by
    intro x
    rw [hmx x]
    simp [hx x]
  refine ⟨setProblem L ++ t1, ht, ?_, ?_, ?_, ?_, wrapInt32_mul_1000_ne⟩
  · intro P
    rw [hmP P]
    simp [hP P]
  · intro v hv
    have hval : L.max_comp_time = wrapInt32 (E.atoi v * 1000) := hA v hv
    refine ⟨hval, ?_⟩
    intro x
    rw [hiff x, hval]
    have := wrapInt32_mul_1000_ne (E.atoi v)
    tauto
  · intro hno
    have hval : L.max_comp_time = -1 := by rw [hB hno, hinit]
    refine ⟨hval, ?_⟩
    intro x
    rw [hiff x]
    simp [hval]
  · constructor
    · rintro ⟨x, hxm⟩
      by_contra hno
      have hno1 : ∀ r ∈ (E.getopt_long argv).1, r.opt ≠ 't' := by
        intro r hr hrt
        exact hno ⟨r, hr, hrt⟩
      have hval : L.max_comp_time = -1 := by rw [hB hno1, hinit]
      exact ((hiff x).1 hxm).1 hval
    · intro hex
      obtain ⟨v, hv⟩ := hC hex
      have hval : L.max_comp_time = wrapInt32 (E.atoi v * 1000) := hA v hv
      refine ⟨L.max_comp_time, (hiff _).2 ⟨?_, rfl⟩⟩
      rw [hval]
      exact wrapInt32_mul_1000_ne (E.atoi v)

theorem C6_witness :
    ∃ t, main (sampleEnv 0 false false) ["mapf", "-m", "a.map", "-a", "b.scen", "-t", "30"]
        = Outcome.exit 0 t ∧
      (∀ P, Event.newInstance P ∈ t ↔ P = ⟨"a.map", "b.scen", 0, 30000, -1, 0⟩) ∧
      (∀ x, Event.setMaxCompTime x ∈ t ↔ x = 30000) := by
  obtain ⟨t, ht, hP, ht30, -⟩ := C6_time_limit_seconds_to_milliseconds (sampleEnv 0 false false)
    ["mapf", "-m", "a.map", "-a", "b.scen", "-t", "30"]
    { map_file := "a.map", agent_file := "b.scen", agentsNum := 0,
      output_file := "./result.txt", path_file := "./result.txt", solver_name := "",
      verbose := false, make_scen := false, log_short := false, max_comp_time := 30000,
      max_timestep := -1, random_seed := 0 }
    rfl (by decide) (by decide)
  exact ⟨t, ht, hP, (ht30 "30" rfl).2⟩

/-- C7, as stated, fails: the string given with `-o` is not the path handed to
`makeLog` or `makeScenFile`; the case for `-o` appends ".csv" to it first. -/
theorem C7_counterexample :
    main (sampleEnv 0 false false)
        ["mapf", "-m", "a.map", "-a", "b.scen", "-s", "HCA", "-o", "out"] =
      Outcome.exit 0
        [Event.newInstance ⟨"a.map", "b.scen", 0, -1, -1, 0⟩,
          Event.make_unique SolverKind.HCA ⟨"a.map", "b.scen", 0, -1, -1, 0⟩,
          Event.setParams 9 ["mapf", "-m", "a.map", "-a", "b.scen", "-s", "HCA", "-o", "out"],
          Event.setVerbose false, Event.setLogShort false, Event.solve, Event.succeed,
          Event.printResult, Event.makeLog "out.csv" "./result.txt"] ∧
    (∀ p, Event.makeLog "out" p ∉
        [Event.newInstance ⟨"a.map", "b.scen", 0, -1, -1, 0⟩,
          Event.make_unique SolverKind.HCA ⟨"a.map", "b.scen", 0, -1, -1, 0⟩,
          Event.setParams 9 ["mapf", "-m", "a.map", "-a", "b.scen", "-s", "HCA", "-o", "out"],
          Event.setVerbose false, Event.setLogShort false, Event.solve, Event.succeed,
          Event.printResult, Event.makeLog "out.csv" "./result.txt"]) ∧
    main (sampleEnv 0 false false) ["mapf", "-m", "a.map", "-a", "b.scen", "-o", "out", "-P"] =
      Outcome.exit 0
        [Event.newInstance ⟨"a.map", "b.scen", 0, -1, -1, 0⟩, Event.makeScenFile "out.csv"] ∧
    Event.makeScenFile "out" ∉
      [Event.newInstance ⟨"a.map", "b.scen", 0, -1, -1, 0⟩, Event.makeScenFile "out.csv"] := by
  refine ⟨rfl, ?_, rfl, ?_⟩
  · intro p
    simp
  · simp

/-- C7, amended. The path given with `-o`, followed by the suffix ".csv", is the
output file path: when the last `-o` came with the string `X`, both paths are
present and the loop ran to its end, then without `-P`, and unless a successful
solve fails validation, `makeLog` is called once, with `X ++ ".csv"` as its
result path; with `-P`, `makeScenFile` is called with `X ++ ".csv"`. -/
theorem C7_output_path_is_optarg_with_csv_suffix (E : Env) (argv : List String) (L : Locals)
    (X : String)
    (hloop : optionLoop E (initLocals E) (E.getopt_long argv).1 = Loop.next L)
    (hmap : L.map_file ≠ "") (hagent : L.agent_file ≠ "")
    (hX : lastArg 'o' (E.getopt_long argv).1 = some X) :
    ∃ t, main E argv = Outcome.exit 0 t ∧
      ((∀ r ∈ (E.getopt_long argv).1, r.opt ≠ 'P') →
        ¬ (E.succeed = true ∧ E.validate = false) →
        (∀ o p, Event.makeLog o p ∈ t ↔ (o = X ++ ".csv" ∧ p = L.path_file)) ∧
        (t.filter (fun e => decide (e = Event.makeLog (X ++ ".csv") L.path_file))).length = 1) ∧
      ((∃ r ∈ (E.getopt_long argv).1, r.opt = 'P') →
        ∀ o, Event.makeScenFile o ∈ t ↔ o = X ++ ".csv") := by
  have hout : L.output_file = X ++ ".csv" :=
    (optionLoop_lastArg E Locals.output_file (fun v => v ++ ".csv") 'o'
      (fun L r L1 h => switchOpt_output_file E L r L1 h)
      (E.getopt_long argv).1 (initLocals E) L hloop).1 X hX
  have hscen := optionLoop_make_scen E (E.getopt_long argv).1 (initLocals E) L hloop
  have hinit : (initLocals E).make_scen = false := rfl
  have hmain := main_next E argv L hloop
  rw [afterOptions_present E _ _ L hmap hagent] at hmain
  cases hs : L.make_scen with
  | true =>
    refine ⟨setProblem L ++ [Event.makeScenFile L.output_file], ?_, ?_, ?_⟩
    · rw [hmain, hs]; simp
    · intro hno
      have := hscen.1 hs
      rw [hinit] at this
      rcases this with h | ⟨r, hr, hrP⟩
      · exact absurd h Bool.false_ne_true
      · exact absurd hrP (hno r hr)
    · intro _ o
      simp [mem_setProblem, hout]
  | false =>
    refine ⟨setProblem L
        ++ (getSolver L.solver_name (instanceOf L) L.verbose argv.length argv).2
        ++ [Event.setLogShort L.log_short]
        ++ solveAndLog E L, ?_, ?_, ?_⟩
    · rw [hmain, hs]; simp
    · intro _ hok
      have hlog : ∀ o p, Event.makeLog o p ∈ setProblem L
          ++ (getSolver L.solver_name (instanceOf L) L.verbose argv.length argv).2
          ++ [Event.setLogShort L.log_short]
          ++ solveAndLog E L ↔ (o = X ++ ".csv" ∧ p = L.path_file) := by
        intro o p
        rw [mem_solver_run E L _ _ _ (by simp) (by simp) (by simp) (by simp) (by simp)
          (by simp) (by simp), mem_solveAndLog]
        simp [hok, hout]
      refine ⟨hlog, ?_⟩
      rw [← hout]
      simp only [List.filter_append]
      have h1 : (setProblem L).filter
          (fun e => decide (e = Event.makeLog L.output_file L.path_file)) = [] := by
        rw [List.filter_eq_nil_iff]
        intro e he
        rw [mem_setProblem] at he
        rcases he with he | ⟨-, he⟩ <;> subst he <;> simp
      have h2 : ((getSolver L.solver_name (instanceOf L) L.verbose argv.length argv).2).filter
          (fun e => decide (e = Event.makeLog L.output_file L.path_file)) = [] := by
        rw [List.filter_eq_nil_iff]
        intro e he
        rcases mem_getSolver _ _ _ _ _ _ he with ⟨l, hl, -⟩ | ⟨k, hk⟩ | hp | hv <;>
          subst_vars <;> simp
      have h3 : (solveAndLog E L).filter
          (fun e => decide (e = Event.makeLog L.output_file L.path_file))
          = [Event.makeLog L.output_file L.path_file] := by
        unfold solveAndLog
        cases hsu : E.succeed <;> cases hv : E.validate <;> cases hb : L.verbose <;>
          simp_all [List.filter]
      rw [h1, h2, h3]
      simp
    · rintro ⟨r, hr, hrP⟩
      have := hscen.2 (Or.inr ⟨r, hr, hrP⟩)
      rw [hs] at this
      exact absurd this Bool.false_ne_true

theorem C7_witness :
    ∃ t, main (sampleEnv 0 false false)
        ["mapf", "-m", "a.map", "-a", "b.scen", "-s", "HCA", "-o", "out"] = Outcome.exit 0 t ∧
      (∀ o p, Event.makeLog o p ∈ t ↔ (o = "out.csv" ∧ p = "./result.txt")) := by
  obtain ⟨t, ht, hlog, -⟩ := C7_output_path_is_optarg_with_csv_suffix (sampleEnv 0 false false)
    ["mapf", "-m", "a.map", "-a", "b.scen", "-s", "HCA", "-o", "out"]
    { map_file := "a.map", agent_file := "b.scen", agentsNum := 0,
      output_file := "out.csv", path_file := "./result.txt", solver_name := "HCA",
      verbose := false, make_scen := false, log_short := false, max_comp_time := -1,
      max_timestep := -1, random_seed := 0 }
    "out" rfl (by decide) (by decide) rfl
  exact ⟨t, ht, (hlog (by decide) (by simp [sampleEnv])).1⟩

/-- C8. When the loop runs to its end with both paths present and a `-P` was
parsed, `main` constructs the instance, calls `setMaxCompTime` if a time limit
was set, calls `makeScenFile` once on the output file and returns 0: no solver
is selected, and `solve`, `validate`, `printResult` and `makeLog` are not
called.  In a run without `-P`, `makeScenFile` is never called. -/
theorem C8_make_scen_writes_scenario_and_stops (E : Env) (argv : List String) :
    (∀ L, optionLoop E (initLocals E) (E.getopt_long argv).1 = Loop.next L →
      L.map_file ≠ "" → L.agent_file ≠ "" →
      (∃ r ∈ (E.getopt_long argv).1, r.opt = 'P') →
      main E argv = Outcome.exit 0
        ([Event.newInstance (instanceOf L)]
          ++ (if L.max_comp_time ≠ -1 then [Event.setMaxCompTime L.max_comp_time] else [])
          ++ [Event.makeScenFile L.output_file])) ∧
    (∀ s t, main E argv = Outcome.exit s t →
      (∀ r ∈ (E.getopt_long argv).1, r.opt ≠ 'P') →
      ∀ o, Event.makeScenFile o ∉ t) := by
  refine ⟨?_, ?_⟩
  · intro L hloop hmap hagent hP
    have hs : L.make_scen = true :=
      (optionLoop_make_scen E (E.getopt_long argv).1 (initLocals E) L hloop).2 (Or.inr hP)
    rw [main_next E argv L hloop, afterOptions_present E _ _ L hmap hagent, hs]
    simp [setProblem]
  · intro s t hrun hno o
    obtain ⟨-, hcases⟩ := main_exit_cases E argv s t hrun
    rcases hcases with ht | ⟨L, hloop, ⟨-, ht⟩ | ⟨-, -, hs, ht⟩ | ⟨-, -, -, ht⟩⟩
    · subst ht; simp [printHelp]
    · subst ht; simp
    · have := (optionLoop_make_scen E (E.getopt_long argv).1 (initLocals E) L hloop).1 hs
      rcases this with h | ⟨r, hr, hrP⟩
      · exact absurd h (by simp [initLocals])
      · exact absurd hrP (hno r hr)
    · subst ht
      rw [mem_solver_run E L _ _ _ (by simp) (by simp) (by simp) (by simp) (by simp)
        (by simp) (by simp), mem_solveAndLog]
      simp

theorem C8_witness :
    main (sampleEnv 0 true true) ["mapf", "-m", "a.map", "-a", "b.scen", "-t", "5", "-P"] =
      Outcome.exit 0
        [Event.newInstance ⟨"a.map", "b.scen", 0, 5000, -1, 0⟩, Event.setMaxCompTime 5000,
          Event.makeScenFile "./result.txt"] :=
  (C8_make_scen_writes_scenario_and_stops (sampleEnv 0 true true)
    ["mapf", "-m", "a.map", "-a", "b.scen", "-t", "5", "-P"]).1
    { map_file := "a.map", agent_file := "b.scen", agentsNum := 0,
      output_file := "./result.txt", path_file := "./result.txt", solver_name := "",
      verbose := false, make_scen := true, log_short := false, max_comp_time := 5000,
      max_timestep := -1, random_seed := 0 }
    rfl (by decide) (by decide) ⟨⟨'P', none⟩, by decide, rfl⟩

/-- C9 fails on the code. Without `-d`, the seed handed to the instance
constructor is whatever the uninitialised local `random_seed` holds: two runs
on the same command line, with the same `getopt_long` returns and the same
surroundings otherwise, construct instances with different seeds.  So the
constructor arguments are no function of the parsed options. -/
theorem C9_seed_is_read_uninitialised :
    (sampleEnv 1 false false).getopt_long ["mapf", "-m", "a.map", "-a", "b.scen", "-P"] =
      (sampleEnv 2 false false).getopt_long ["mapf", "-m", "a.map", "-a", "b.scen", "-P"] ∧
    main (sampleEnv 1 false false) ["mapf", "-m", "a.map", "-a", "b.scen", "-P"] =
      Outcome.exit 0
        [Event.newInstance ⟨"a.map", "b.scen", 0, -1, -1, 1⟩,
          Event.makeScenFile "./result.txt"] ∧
    main (sampleEnv 2 false false) ["mapf", "-m", "a.map", "-a", "b.scen", "-P"] =
      Outcome.exit 0
        [Event.newInstance ⟨"a.map", "b.scen", 0, -1, -1, 2⟩,
          Event.makeScenFile "./result.txt"] ∧
    ¬ ∃ f : String → (String → Int) → List OptRet → MAPF_Instance,
        ∀ (E : Env) (argv : List String) (t : List Event) (P : MAPF_Instance),
          main E argv = Outcome.exit 0 t → Event.newInstance P ∈ t →
          P = f E.DEFAULT_OUTPUT_FILE E.atoi (E.getopt_long argv).1 := by
  refine ⟨rfl, rfl, rfl, ?_⟩
  rintro ⟨f, hf⟩
  have h1 := hf (sampleEnv 1 false false) ["mapf", "-m", "a.map", "-a", "b.scen", "-P"]
    [Event.newInstance ⟨"a.map", "b.scen", 0, -1, -1, 1⟩, Event.makeScenFile "./result.txt"]
    ⟨"a.map", "b.scen", 0, -1, -1, 1⟩ rfl (by simp)
  have h2 := hf (sampleEnv 2 false false) ["mapf", "-m", "a.map", "-a", "b.scen", "-P"]
    [Event.newInstance ⟨"a.map", "b.scen", 0, -1, -1, 2⟩, Event.makeScenFile "./result.txt"]
    ⟨"a.map", "b.scen", 0, -1, -1, 2⟩ rfl (by simp)
  have h3 : (⟨"a.map", "b.scen", 0, -1, -1, 1⟩ : MAPF_Instance)
      = ⟨"a.map", "b.scen", 0, -1, -1, 2⟩ := h1.trans h2.symm
  simp at h3

/-- With a `-d` that carries a value, the seed is `atoi` of the last such value;
without one it is the initial content of the local. -/
theorem seed_after_options (E : Env) (argv : List String) (L : Locals)
    (hloop : optionLoop E (initLocals E) (E.getopt_long argv).1 = Loop.next L) :
    (∀ v, lastArg 'd' (E.getopt_long argv).1 = some v → L.random_seed = E.atoi v) ∧
    ((∀ r ∈ (E.getopt_long argv).1, r.opt ≠ 'd') → L.random_seed = E.random_seed) := by
  obtain ⟨hA, hB, -⟩ := optionLoop_lastArg E Locals.random_seed E.atoi 'd'
    (fun L r L1 h => switchOpt_random_seed E L r L1 h)
    (E.getopt_long argv).1 (initLocals E) L hloop
  exact ⟨hA, fun hno => by rw [hB hno]; rfl⟩

/-- C10. An option character the `switch` has no case for leaves all locals
as they were and lets the loop go on, so the loop ends as it would have without
that option; and whenever `main` reaches the solver, `setParams` is called
once, with `argc` and with the argument vector as it stood on entry to `main`,
whatever `getopt_long` did to `argv` in between. -/
theorem C10_unknown_options_are_skipped_and_argv_is_passed_on :
    (∀ (E : Env) (L : Locals) (r : OptRet), r.opt ∉ knownOpts →
      switchOpt E L r = Loop.next L) ∧
    (∀ (E : Env) (L : Locals) (xs ys : List OptRet) (r : OptRet), r.opt ∉ knownOpts →
      optionLoop E L (xs ++ r :: ys) = optionLoop E L (xs ++ ys)) ∧
    (∀ (E : Env) (argv : List String) (s : Int) (t : List Event) (n : Nat) (a : List String),
      main E argv = Outcome.exit s t → Event.setParams n a ∈ t →
      n = argv.length ∧ a = argv) ∧
    (∀ (E : Env) (argv : List String) (s : Int) (t : List Event),
      main E argv = Outcome.exit s t → Event.solve ∈ t →
      (t.filter (fun e => decide (e = Event.setParams argv.length argv))).length = 1) := by
  refine ⟨?_, ?_, ?_, ?_⟩
  · intro E L r hr
    exact switchOpt_default E L r hr
  · intro E L xs ys r hr
    rw [optionLoop_append, optionLoop_append]
    cases h1 : optionLoop E L xs with
    | next L1 => simp [optionLoop, switchOpt_default E L1 r hr]
    | help => rfl
    | undefined => rfl
  · intro E argv s t n a hrun hmem
    obtain ⟨-, hcases⟩ := main_exit_cases E argv s t hrun
    rcases hcases with ht | ⟨L, -, ⟨-, ht⟩ | ⟨-, -, -, ht⟩ | ⟨-, -, -, ht⟩⟩
    · subst ht; simp [printHelp] at hmem
    · subst ht; simp at hmem
    · subst ht; simp [mem_setProblem] at hmem
    · subst ht
      simp only [List.mem_append, List.mem_singleton, mem_setProblem, mem_solveAndLog] at hmem
      rcases hmem with ((hm | hm) | hm) | hm
      · simp at hm
      · rcases mem_getSolver _ _ _ _ _ _ hm with ⟨l, hl, -⟩ | ⟨k, hk⟩ | hp | hv
        · simp at hl
        · simp at hk
        · simpa using hp
        · simp at hv
      · simp at hm
      · simp at hm
  · intro E argv s t hrun hsolve
    obtain ⟨-, hcases⟩ := main_exit_cases E argv s t hrun
    rcases hcases with ht | ⟨L, -, ⟨-, ht⟩ | ⟨-, -, -, ht⟩ | ⟨-, -, -, ht⟩⟩
    · subst ht; simp [printHelp] at hsolve
    · subst ht; simp at hsolve
    · subst ht; simp [mem_setProblem] at hsolve
    · subst ht
      simp only [List.filter_append]
      have h1 : (setProblem L).filter
          (fun e => decide (e = Event.setParams argv.length argv)) = [] := by
        rw [List.filter_eq_nil_iff]
        intro e he
        rw [mem_setProblem] at he
        rcases he with he | ⟨-, he⟩ <;> subst he <;> simp
      have h2 : ((getSolver L.solver_name (instanceOf L) L.verbose argv.length argv).2).filter
          (fun e => decide (e = Event.setParams argv.length argv))
          = [Event.setParams argv.length argv] := by
        unfold getSolver
        split_ifs <;> simp [List.filter]
      have h3 : (solveAndLog E L).filter
          (fun e => decide (e = Event.setParams argv.length argv)) = [] := by
        rw [List.filter_eq_nil_iff]
        intro e he
        rw [mem_solveAndLog] at he
        rcases he with he | he | ⟨-, he⟩ | ⟨-, -, he⟩ | ⟨-, he | he | ⟨-, he⟩⟩ <;>
          subst he <;> simp
      rw [h1, h2, h3]
      simp [List.filter]

theorem C10_witness :
    switchOpt (sampleEnv 0 true true) (initLocals (sampleEnv 0 true true)) ⟨'?', none⟩ =
      Loop.next (initLocals (sampleEnv 0 true true)) ∧
    optionLoop (sampleEnv 0 true true) (initLocals (sampleEnv 0 true true))
        ([⟨'m', some "a.map"⟩] ++ ⟨'?', none⟩ :: [⟨'a', some "b.scen"⟩]) =
      optionLoop (sampleEnv 0 true true) (initLocals (sampleEnv 0 true true))
        ([⟨'m', some "a.map"⟩] ++ [⟨'a', some "b.scen"⟩]) ∧
    (7 = ["mapf", "-m", "a.map", "-x", "-a", "b.scen", "3"].length ∧
      ["mapf", "-m", "a.map", "-x", "-a", "b.scen", "3"] =
        ["mapf", "-m", "a.map", "-x", "-a", "b.scen", "3"]) :=
  ⟨C10_unknown_options_are_skipped_and_argv_is_passed_on.1 _ _ _ (by decide),
    C10_unknown_options_are_skipped_and_argv_is_passed_on.2.1 _ _ _ _ _ (by decide),
    C10_unknown_options_are_skipped_and_argv_is_passed_on.2.2.1 (sampleEnv 0 true true)
      ["mapf", "-m", "a.map", "-x", "-a", "b.scen", "3"] 0
      [Event.newInstance ⟨"a.map", "b.scen", 0, -1, -1, 0⟩,
        Event.cout "warn@mapf: unknown solver name, , continue by PIBT",
        Event.make_unique SolverKind.PIBT ⟨"a.map", "b.scen", 0, -1, -1, 0⟩,
        Event.setParams 7 ["mapf", "-m", "a.map", "-x", "-a", "b.scen", "3"],
        Event.setVerbose false, Event.setLogShort false, Event.solve, Event.succeed,
        Event.validate ⟨"a.map", "b.scen", 0, -1, -1, 0⟩, Event.printResult,
        Event.makeLog "./result.txt" "./result.txt"]
      7 ["mapf", "-m", "a.map", "-x", "-a", "b.scen", "3"] rfl (by simp)⟩

end Mapf
